import Mathlib

/-!
Verification of the fotoprotokoll-generator content-matching and page-planning
core: a shallow embedding of `src/pipeline/stage3b_match.py`,
`src/pipeline/stage4_layout.py`, `src/models/manifest.py`,
`src/models/content_plan.py` and `src/models/page_plan.py`, together with
theorems settling the frozen specification claims.

Python floats are modelled as rationals; `round(x, 4)` is modelled as
round-half-to-even at 4 decimal digits on the exact rational value.
-/

set_option maxRecDepth 8000

namespace FPG

/-! ### Numeric helpers -/

/-- Floor of a rational number. -/
def floorQ (q : ℚ) : ℤ := ⌊q⌋

/-- Round-half-to-even to an integer, as Python's built-in `round` does
    (on the exact rational value; Python operates on the nearest binary
    float, which agrees on all values arising in these claims). -/
def roundHalfEven (q : ℚ) : ℤ :=
  let f := floorQ q
  let r := q - (f : ℚ)
  if r < 1/2 then f
  else if 1/2 < r then f + 1
  else if f % 2 = 0 then f else f + 1

/-- Python's `round(x, 4)`. -/
def roundQ4 (q : ℚ) : ℚ := (roundHalfEven (q * 10000) : ℚ) / 10000

/-- `statistics.mean` on a nonempty list (Python computes this exactly via
    `Fraction` before converting back to float). -/
def pyMean (l : List ℚ) : ℚ := l.sum / (l.length : ℚ)

/-- Python's `max(xs, key=f)`: the first element attaining the maximum key.
    A later element replaces the current best only when strictly greater. -/
def pyMaxBy (f : α → ℚ) : List α → Option α
  | [] => none
  | x :: xs =>
    match pyMaxBy f xs with
    | none => some x
    | some y => if f y > f x then some y else some x

/-- Python's `min(xs, key=f)`: the first element attaining the minimum key. -/
def pyMinBy (f : α → ℤ) : List α → Option α
  | [] => none
  | x :: xs =>
    match pyMinBy f xs with
    | none => some x
    | some y => if f y < f x then some y else some x

/-! ### Ordered-dict helpers

Python `dict` preserves the insertion order of first insertion; assigning to
an existing key overwrites the value in place.  We model the dicts used by the
pipeline as association lists with exactly these semantics. -/

/-- `d[k] = v` on an insertion-ordered dict. -/
def upsert : List (String × α) → String → α → List (String × α)
  | [], k, v => [(k, v)]
  | (k', v') :: rest, k, v =>
    if k' = k then (k, v) :: rest else (k', v') :: upsert rest k v

/-- `d[k]` / `d.get(k)` on an insertion-ordered dict. -/
def dlookup (l : List (String × α)) (k : String) : Option α :=
  (l.find? (fun p => p.1 = k)).map (fun p => p.2)

/-- `d[k].append(v)` for a dict of lists; a no-op when the key is absent
    (Python would raise `KeyError`; in the pipeline the key always comes from
    the session list, so the branch is unreachable). -/
def dictAppend : List (String × List α) → String → α → List (String × List α)
  | [], _, _ => []
  | (k', vs) :: rest, k, v =>
    if k' = k then (k', vs ++ [v]) :: rest else (k', vs) :: dictAppend rest k v

/-- `[lst[i:i+m] for i in range(0, len(lst), m)]`, by fuel-guarded recursion
    (the fuel is the list length; with `m ≥ 1` it is never exhausted.  Python
    raises `ValueError` on step `m = 0`; the settings validator guarantees
    `m ≥ 1` before this is reached). -/
def chunkAux (m : Nat) : Nat → List α → List (List α)
  | _, [] => []
  | 0, _ :: _ => []
  | fuel + 1, x :: xs => (x :: xs).take m :: chunkAux m fuel ((x :: xs).drop m)

/-- Partition a list into consecutive batches of at most `m` elements. -/
def chunkList (m : Nat) (l : List α) : List (List α) := chunkAux m l.length l

/-- Zero-pad a natural number to three digits, as Python's `f"{i:03d}"`. -/
def pad3 (n : Nat) : String :=
  if n < 10 then "00" ++ toString n
  else if n < 100 then "0" ++ toString n
  else toString n

/-! ### Data model: time

Python `datetime.time` values are compared field-wise lexicographically and
validate `0 ≤ hour < 24`, `0 ≤ minute < 60`, `0 ≤ second < 60` on
construction; theorems that need the ranges take them as hypotheses.
Microseconds are elided (they behave exactly like a fractional second and no
claim distinguishes them); timezone info is stripped by the matching stage
before any comparison, so the model carries none. -/

structure Time where
  hour : Nat
  minute : Nat
  second : Nat
deriving DecidableEq, Repr

/-- Field-wise lexicographic comparison of `datetime.time` values. -/
def Time.leb (a b : Time) : Bool :=
  decide (a.hour < b.hour) ||
    (decide (a.hour = b.hour) &&
      (decide (a.minute < b.minute) ||
        (decide (a.minute = b.minute) && decide (a.second ≤ b.second))))

/-- `t.hour * 60 + t.minute`, the whole-minute value used by
    `_minutes_distance` (seconds are ignored there). -/
def Time.toMinutes (t : Time) : Nat := t.hour * 60 + t.minute

/-- Well-formedness of a `datetime.time` (guaranteed by its constructor). -/
def Time.valid (t : Time) : Prop :=
  t.hour < 24 ∧ t.minute < 60 ∧ t.second < 60

instance (t : Time) : Decidable t.valid := by
  unfold Time.valid; infer_instance

/-- A `datetime.datetime`: the matching stage only ever uses its
    time-of-day (`ts.time()`), so the date is an opaque ordinal. -/
structure DateTime where
  dayOrdinal : Nat
  time : Time
deriving DecidableEq, Repr

/-! ### Data model: manifest (`src/models/manifest.py`)

Only the fields consumed by stages 3b and 4 are modelled. -/

structure AgendaSession where
  id : String
  order : Int
  name : String
  start_time : Option Time
  end_time : Option Time
deriving DecidableEq, Repr

/-- `Photo`: `timestamp_exif` is optional, `timestamp_file` is a required
    field; `orientation` is one of "landscape" / "portrait" / "square". -/
structure Photo where
  id : String
  timestamp_exif : Option DateTime
  timestamp_file : DateTime
  orientation : String
deriving DecidableEq, Repr

/-- `Photo.best_timestamp`: `self.timestamp_exif or self.timestamp_file`.
    The result is `Option`-typed because the consumer in stage 3b checks it
    against `None`; claim C10 is that the `none` case never arises. -/
def Photo.best_timestamp (p : Photo) : Option DateTime :=
  match p.timestamp_exif with
  | some d => some d
  | none => some p.timestamp_file

structure TextSnippet where
  id : String
  filename : String
  content : String
deriving DecidableEq, Repr

structure WorkshopDate where
  year : Nat
  month : Nat
  day : Nat
deriving DecidableEq, Repr

structure WorkshopMeta where
  title : String
  workshop_date : Option WorkshopDate
  location : Option String
deriving DecidableEq, Repr

structure ProjectManifest where
  meta : WorkshopMeta
  sessions : List AgendaSession
  photos : List Photo
  text_snippets : List TextSnippet
deriving DecidableEq, Repr

/-! ### Data model: enriched photos (`src/models/enriched_photos.py`) -/

/-- Normalized crop coordinates in `[0, 1]`. -/
structure CropBox where
  x_min : ℚ
  y_min : ℚ
  x_max : ℚ
  y_max : ℚ
deriving DecidableEq, Repr

structure EnrichedPhoto where
  photo_id : String
  scene_type : String
  description : String
  ocr_text : Option String
  topic_keywords : List String
  crop_box : Option CropBox
deriving DecidableEq, Repr

structure EnrichedPhotoSet where
  enriched_photos : List EnrichedPhoto
deriving DecidableEq, Repr

/-! ### Data model: content plan (`src/models/content_plan.py`) -/

/-- Weight constants hard-coded in `content_plan.py` ("these match the
    defaults in settings.py; if you change the weights in settings, update
    these constants to match"). -/
def TEMPORAL_WEIGHT : ℚ := 3/5

def SEMANTIC_WEIGHT : ℚ := 2/5

structure ContentItem where
  id : String
  session_ref : String
  heading : String
  photo_ids : List String
  text_snippet_ref : Option String
  temporal_confidence : ℚ
  semantic_confidence : ℚ
  needs_review : Bool
deriving DecidableEq, Repr

/-- `ContentItem.combined_confidence`: a pydantic `computed_field` — always
    recomputed from the two stored confidences via the hard-coded module
    constants, never accepted as input. -/
def ContentItem.combined_confidence (it : ContentItem) : ℚ :=
  roundQ4 (TEMPORAL_WEIGHT * it.temporal_confidence
    + SEMANTIC_WEIGHT * it.semantic_confidence)

structure ContentPlan where
  items : List ContentItem
deriving DecidableEq, Repr

/-! ### Data model: page plan (`src/models/page_plan.py`) -/

structure PhotoSlot where
  photo_id : String
  caption : String
  display_size : String
  subtitle : String
deriving DecidableEq, Repr

structure TextBlock where
  content : String
  role : String
  style_ref : String
deriving DecidableEq, Repr

structure Page where
  page_number : Nat
  page_type : String
  layout_variant : String
  content_item_ref : Option String
  photo_slots : List PhotoSlot
  text_blocks : List TextBlock
deriving DecidableEq, Repr

structure PagePlan where
  pages : List Page
deriving DecidableEq, Repr

/-! ### Settings (`src/settings.py`)

Only the fields consumed by stages 3b and 4.  The field validators reject
`match_confidence_threshold ∉ [0,1]` and `max_photos_per_page < 1`; theorems
take those ranges as hypotheses where they matter. -/

structure Settings where
  match_confidence_threshold : ℚ := 13/20
  temporal_weight : ℚ := 3/5
  semantic_weight : ℚ := 2/5
  max_photos_per_page : Nat := 2
  section_dividers : Bool := false
deriving DecidableEq, Repr

/-! ### Stage 3b: tokenization (`stage3b_match._tokenize`)

`re.findall(r'\b[a-zäöüßA-ZÄÖÜ]{2,}\b', text.lower())` followed by `set(...)`.
A match of this pattern is a maximal run of characters from the bracket class,
of length at least 2, whose neighbouring characters (when they exist) are not
word characters (`\b` fails between two word characters, and any character of
the class is itself a word character, so a match can never be a proper sub-run).

Python's `\w` covers all Unicode word characters; the model restricts it to
ASCII letters and digits, the underscore and the German letters of the bracket
class — the only characters any claim mentions.  `str.lower` is modelled on
the same alphabet. -/

/-- A character of the regex bracket class `[a-zäöüßA-ZÄÖÜ]`. -/
def isTokChar (c : Char) : Bool :=
  (decide ('a' ≤ c) && decide (c ≤ 'z')) ||
    (decide ('A' ≤ c) && decide (c ≤ 'Z')) ||
    c = 'ä' || c = 'ö' || c = 'ü' || c = 'ß' || c = 'Ä' || c = 'Ö' || c = 'Ü'

/-- A regex word character (`\w`), restricted to the modelled alphabet. -/
def isWordChar (c : Char) : Bool := isTokChar c || c.isDigit || c = '_'

/-- `str.lower` on one character of the modelled alphabet. -/
def lowerChar (c : Char) : Char :=
  if c = 'Ä' then 'ä' else if c = 'Ö' then 'ö' else if c = 'Ü' then 'ü'
  else c.toLower

/-- One left-to-right scan of the lowered text.  The state is either
    `Sum.inl prevW` (not inside an alphabetic run; `prevW` says whether the
    previously seen character was a word character) or `Sum.inr (ok, acc)`
    (inside the run `acc`; `ok` says whether the run started at a word
    boundary).  A completed run is kept exactly when it started at a word
    boundary, has length at least 2, and ends at a word boundary. -/
def tokAux (st : Sum Bool (Bool × List Char)) : List Char → List (List Char)
  | [] =>
    match st with
    | Sum.inl _ => []
    | Sum.inr (ok, acc) => if ok && decide (2 ≤ acc.length) then [acc] else []
  | c :: cs =>
    match st with
    | Sum.inl prevW =>
      if isTokChar c then tokAux (Sum.inr (!prevW, [c])) cs
      else tokAux (Sum.inl (isWordChar c)) cs
    | Sum.inr (ok, acc) =>
      if isTokChar c then tokAux (Sum.inr (ok, acc ++ [c])) cs
      else
        (if ok && decide (2 ≤ acc.length) && !isWordChar c then [acc] else [])
          ++ tokAux (Sum.inl (isWordChar c)) cs

/-- `_tokenize`: the set of regex matches over the lowered text. -/
def tokenizeWords (text : String) : List (List Char) :=
  tokAux (Sum.inl false) (text.data.map lowerChar)

/-- `_tokenize` as a set of strings (Python returns a `set`). -/
def pyTokenize (text : String) : Finset String :=
  ((tokenizeWords text).map (fun w => String.mk w)).toFinset

/-- Specification side condition: the character following a candidate match
    is not a word character (or the text ends there). -/
def okAfterB (post : List Char) : Bool :=
  match post.head? with
  | none => true
  | some c => !isWordChar c

/-- Specification side condition: the character preceding a candidate match
    is not a word character.  When `pre` is empty the scan state `prevW`
    says whether the character just before the scanned suffix was one. -/
def lastOkB : List Char → Bool → Bool
  | [], prevW => !prevW
  | c :: pre, _ => lastOkB pre (isWordChar c)

/-- The tokens the regex `\b[a-zäöüßA-ZÄÖÜ]{2,}\b` matches in `cs` (scanned
    with incoming word-state `prevW`): runs of bracket-class characters of
    length ≥ 2 delimited by word boundaries on both sides. -/
def TokensSpec (prevW : Bool) (cs w : List Char) : Prop :=
  2 ≤ w.length ∧ w.all isTokChar = true ∧
    ∃ pre post, cs = pre ++ w ++ post ∧ lastOkB pre prevW = true ∧
      okAfterB post = true

/-- Tokens obtained by extending the currently open run `acc` (scan state
    `Sum.inr (ok, acc)`): the run absorbs a fully-alphabetic prefix of `cs`
    and must end at a word boundary. -/
def RunSpec (ok : Bool) (acc : List Char) (cs w : List Char) : Prop :=
  ok = true ∧ 2 ≤ w.length ∧
    ∃ mid post, cs = mid ++ post ∧ mid.all isTokChar = true ∧
      w = acc ++ mid ∧ okAfterB post = true

/-- The token set claim C6 describes, modelled from the claim's words: every
    maximal alphabetic run of length ≥ 2 of the lowered text — delimited only
    by non-**alphabetic** neighbours, i.e. *including* runs adjacent to
    digits or other word characters. -/
def ClaimTokenOf (text w : String) : Prop :=
  2 ≤ w.length ∧ w.data.all isTokChar = true ∧
    ∃ pre post, text.data.map lowerChar = pre ++ w.data ++ post ∧
      (∀ c, pre.getLast? = some c → isTokChar c = false) ∧
      (∀ c, post.head? = some c → isTokChar c = false)

/-! ### Stage 3b: semantic scoring (`stage3b_match._semantic_score`) -/

/-- `_SEMANTIC_FLOOR`. -/
def SEMANTIC_FLOOR : ℚ := 1/10

/-- `_semantic_score(enriched, session, text_snippets)`. -/
def semantic_score (enriched : Option EnrichedPhoto) (session : AgendaSession)
    (text_snippets : List TextSnippet) : ℚ :=
  match enriched with
  | none => SEMANTIC_FLOOR
  | some e =>
    let photo_words := pyTokenize
      (String.intercalate " " e.topic_keywords
        ++ " " ++ (e.ocr_text.getD "") ++ " " ++ e.description)
    let snippet_text := String.intercalate " " (text_snippets.map (fun s => s.content))
    let session_words := pyTokenize (session.name ++ " " ++ snippet_text)
    if photo_words = ∅ ∨ session_words = ∅ then SEMANTIC_FLOOR
    else
      let jaccard : ℚ :=
        ((photo_words ∩ session_words).card : ℚ) / ((photo_words ∪ session_words).card : ℚ)
      max SEMANTIC_FLOOR (roundQ4 jaccard)

/-! ### Stage 3b: temporal scoring (`stage3b_match._temporal_score`) -/

/-- `_time_in_window(t, start, end)`: `start <= t <= end`. -/
def time_in_window (t start e : Time) : Bool := start.leb t && t.leb e

/-- `_minutes_distance(t, start, end)`: minutes outside `[start, end]`,
    computed on whole `hour*60 + minute` values (seconds play no part). -/
def minutes_distance (t start e : Time) : ℚ :=
  let t_mins : ℤ := t.toMinutes
  let s_mins : ℤ := start.toMinutes
  let e_mins : ℤ := e.toMinutes
  if s_mins ≤ t_mins ∧ t_mins ≤ e_mins then 0
  else ((min (t_mins - s_mins).natAbs (t_mins - e_mins).natAbs : ℕ) : ℚ)

/-- `_add_minutes(t, minutes)`: clamped to 23:59; note the result's seconds
    are zero (`time(total // 60, total % 60)`). -/
def add_minutes (t : Time) (minutes : Nat) : Time :=
  let total := min (t.hour * 60 + t.minute + minutes) (23 * 60 + 59)
  ⟨total / 60, total % 60, 0⟩

/-- The effective end of a session window whose start is known: the session's
    own end time; else the start of the next later session that has one; else
    `start + 90` minutes. -/
def effectiveEnd (session : AgendaSession) (all_sessions : List AgendaSession)
    (start : Time) : Time :=
  match session.end_time with
  | some e => e
  | none =>
    let next_sessions := all_sessions.filter
      (fun s => decide (session.order < s.order) && s.start_time.isSome)
    match pyMinBy (fun s => s.order) next_sessions with
    | some nxt => nxt.start_time.getD ⟨0, 0, 0⟩
    | none => add_minutes start 90

/-- The body of `_temporal_score` after the timestamp has been extracted
    (`photo_time = ts.time()`, timezone stripped). -/
def temporal_score_at (photo_time : Time) (session : AgendaSession)
    (all_sessions : List AgendaSession) : ℚ :=
  if all_sessions.filter (fun s => s.start_time.isSome) = [] then 1/2
  else
    match session.start_time with
    | none => 1/10
    | some start =>
      let e := effectiveEnd session all_sessions start
      if time_in_window photo_time start e then 1
      else max 0 (1 - minutes_distance photo_time start e / 30)

/-- `_temporal_score(photo, session, all_sessions)`. -/
def temporal_score (photo : Photo) (session : AgendaSession)
    (all_sessions : List AgendaSession) : ℚ :=
  match photo.best_timestamp with
  | none => 1/2
  | some ts => temporal_score_at ts.time session all_sessions

/-! ### Stage 3b: assignment (`stage3b_match.run`) -/

/-- `_combined(scores, settings)`. -/
def combinedOf (scores : ℚ × ℚ) (settings : Settings) : ℚ :=
  roundQ4 (settings.temporal_weight * scores.1 + settings.semantic_weight * scores.2)

/-- `_find_text_snippet(session, text_snippets)`: MVP stub — the first
    snippet goes to the session with `order == 1`, all others get none. -/
def find_text_snippet (session : AgendaSession)
    (text_snippets : List TextSnippet) : Option String :=
  if session.order = 1 ∧ text_snippets ≠ [] then
    text_snippets.head?.map (fun s => s.id)
  else none

/-- `{e.photo_id: e for e in photo_set.enriched_photos}`. -/
def enrichedMapOf (es : List EnrichedPhoto) : List (String × EnrichedPhoto) :=
  es.foldl (fun m e => upsert m e.photo_id e) []

/-- The `photo_scores` dict: `{photo_id: {session_id: (temporal, semantic)}}`. -/
def photoScoresOf (manifest : ProjectManifest) (photo_set : EnrichedPhotoSet) :
    List (String × List (String × (ℚ × ℚ))) :=
  let enriched_map := enrichedMapOf photo_set.enriched_photos
  manifest.photos.foldl
    (fun acc photo =>
      upsert acc photo.id
        (manifest.sessions.foldl
          (fun sacc session =>
            upsert sacc session.id
              (temporal_score photo session manifest.sessions,
               semantic_score (dlookup enriched_map photo.id) session
                 manifest.text_snippets))
          []))
    []

/-- The `assignments` dict after the per-photo argmax loop:
    `{session_id: [photo_id, ...]}`.  `max(scores, key=...)` iterates the
    score dict in insertion order (= session order) and keeps the first key
    attaining the maximal combined score. -/
def assignmentsOf (settings : Settings) (manifest : ProjectManifest)
    (photo_set : EnrichedPhotoSet) : List (String × List String) :=
  let photo_scores := photoScoresOf manifest photo_set
  manifest.photos.foldl
    (fun acc photo =>
      let scores := (dlookup photo_scores photo.id).getD []
      match pyMaxBy (fun kv => combinedOf kv.2 settings) scores with
      | some best => dictAppend acc best.1 photo.id
      | none => acc)
    (manifest.sessions.foldl (fun acc s => upsert acc s.id []) [])

/-- The two aggregated (unrounded) confidences of one session: the arithmetic
    means of the per-dimension scores over its assigned photos, or the neutral
    `0.5` when it has none. -/
def aggConf (settings : Settings) (manifest : ProjectManifest)
    (photo_set : EnrichedPhotoSet) (session : AgendaSession) : ℚ × ℚ :=
  let photo_scores := photoScoresOf manifest photo_set
  let assigned := (dlookup (assignmentsOf settings manifest photo_set) session.id).getD []
  let t_scores := assigned.map
    (fun pid => ((dlookup ((dlookup photo_scores pid).getD []) session.id).getD (0, 0)).1)
  let s_scores := assigned.map
    (fun pid => ((dlookup ((dlookup photo_scores pid).getD []) session.id).getD (0, 0)).2)
  (if t_scores = [] then 1/2 else pyMean t_scores,
   if s_scores = [] then 1/2 else pyMean s_scores)

/-- Python's `enumerate(xs, start)`. -/
def pyEnum (start : Nat) : List α → List (Nat × α)
  | [] => []
  | x :: xs => (start, x) :: pyEnum (start + 1) xs

/-- The `ContentItem` built for one session, `i` being its 1-based position
    (`enumerate(sessions, start=1)`). -/
def mkItem (settings : Settings) (manifest : ProjectManifest)
    (photo_set : EnrichedPhotoSet) (i : Nat) (session : AgendaSession) : ContentItem :=
  let agg := aggConf settings manifest photo_set session
  { id := "item_" ++ pad3 i
    session_ref := session.id
    heading := session.name
    photo_ids := (dlookup (assignmentsOf settings manifest photo_set) session.id).getD []
    text_snippet_ref := find_text_snippet session manifest.text_snippets
    temporal_confidence := roundQ4 agg.1
    semantic_confidence := roundQ4 agg.2
    needs_review :=
      if combinedOf agg settings < settings.match_confidence_threshold then true
      else false }

/-- `stage3b_match.run` (minus the artifact write, which is I/O). -/
def stage3b_run (settings : Settings) (manifest : ProjectManifest)
    (photo_set : EnrichedPhotoSet) : ContentPlan :=
  if manifest.sessions = [] then ⟨[]⟩
  else ⟨(pyEnum 1 manifest.sessions).map (fun p => mkItem settings manifest photo_set p.1 p.2)⟩

/-! ### Stage 4: layout planning (`stage4_layout.py`) -/

/-- German month names, index 1-12. -/
def DE_MONTHS : List String :=
  ["", "Januar", "Februar", "März", "April", "Mai", "Juni",
   "Juli", "August", "September", "Oktober", "November", "Dezember"]

/-- `_format_date_de(d)`: "9. Februar 2026" — no leading zero on the day. -/
def format_date_de (d : WorkshopDate) : String :=
  toString d.day ++ ". " ++ (DE_MONTHS.getD d.month "") ++ " " ++ toString d.year

/-- `{p.id: p.orientation for p in manifest.photos}`. -/
def orientationMapOf (photos : List Photo) : List (String × String) :=
  photos.foldl (fun m p => upsert m p.id p.orientation) []

/-- `_make_cover(page_number, manifest)`. -/
def make_cover (page_number : Nat) (manifest : ProjectManifest) : Page :=
  let meta := manifest.meta
  let blocks :=
    [TextBlock.mk meta.title "heading" "heading"]
      ++ (match meta.workshop_date with
          | some d => [TextBlock.mk (format_date_de d) "body" "body"]
          | none => [])
      ++ (match meta.location with
          | some loc => [TextBlock.mk loc "body" "body"]
          | none => [])
  { page_number := page_number
    page_type := "cover"
    layout_variant := "text-only"
    content_item_ref := none
    photo_slots := []
    text_blocks := blocks }

/-- `_make_section_divider(page_number, item)`. -/
def make_section_divider (page_number : Nat) (item : ContentItem) : Page :=
  { page_number := page_number
    page_type := "section_divider"
    layout_variant := "text-only"
    content_item_ref := some item.id
    photo_slots := []
    text_blocks := [TextBlock.mk item.heading "heading" "heading"] }

/-- `_photo_orientation(photo_id, enriched_map, orientation_map)`: manifest
    orientation wins; else a portrait-shaped crop box; else "landscape". -/
def photo_orientation (photo_id : String)
    (enriched_map : List (String × EnrichedPhoto))
    (orientation_map : List (String × String)) : String :=
  match dlookup orientation_map photo_id with
  | some o => o
  | none =>
    match dlookup enriched_map photo_id with
    | some e =>
      match e.crop_box with
      | some cb => if cb.y_max - cb.y_min > cb.x_max - cb.x_min then "portrait" else "landscape"
      | none => "landscape"
    | none => "landscape"

/-- `_make_photo_slot(photo_id, batch_size, enriched_map, orientation_map)`. -/
def make_photo_slot (photo_id : String) (batch_size : Nat)
    (enriched_map : List (String × EnrichedPhoto))
    (orientation_map : List (String × String)) : PhotoSlot :=
  let caption := match dlookup enriched_map photo_id with
    | some e => e.description
    | none => ""
  let orientation := photo_orientation photo_id enriched_map orientation_map
  let display_size :=
    if batch_size = 1 then
      if orientation = "landscape" then "full-width" else "portrait-pair"
    else
      if orientation = "portrait" then "portrait-pair" else "full-width"
  { photo_id := photo_id, caption := caption, display_size := display_size,
    subtitle := "" }

/-- `_pick_layout_variant(slots)`. -/
def pick_layout_variant (slots : List PhotoSlot) : String :=
  if slots.length = 1 then "1-photo" else "2-photo"

/-- The batch loop of `_make_content_pages`: one content page per batch,
    numbered consecutively; the item heading only on the first batch. -/
def pagesOfBatches (item : ContentItem)
    (enriched_map : List (String × EnrichedPhoto))
    (orientation_map : List (String × String)) :
    Nat → Bool → List (List String) → List Page
  | _, _, [] => []
  | n, first, batch :: rest =>
    let slots := batch.map (fun pid => make_photo_slot pid batch.length enriched_map orientation_map)
    { page_number := n
      page_type := "content"
      layout_variant := pick_layout_variant slots
      content_item_ref := some item.id
      photo_slots := slots
      text_blocks := if first then [TextBlock.mk item.heading "heading" "heading"] else [] }
      :: pagesOfBatches item enriched_map orientation_map (n + 1) false rest

/-- `_make_content_pages(start_page, item, enriched_map, orientation_map,
    max_per_page)`. -/
def make_content_pages (start_page : Nat) (item : ContentItem)
    (enriched_map : List (String × EnrichedPhoto))
    (orientation_map : List (String × String)) (max_per_page : Nat) : List Page :=
  if item.photo_ids = [] then
    [{ page_number := start_page
       page_type := "content"
       layout_variant := "text-only"
       content_item_ref := some item.id
       photo_slots := []
       text_blocks := [TextBlock.mk item.heading "heading" "heading"] }]
  else
    pagesOfBatches item enriched_map orientation_map start_page true
      (chunkList max_per_page item.photo_ids)

/-- One iteration of the stage-4 item loop: optionally a section divider,
    then the item's content pages; the accumulator is `(pages, page_number)`. -/
def stage4_step (settings : Settings)
    (enriched_map : List (String × EnrichedPhoto))
    (orientation_map : List (String × String))
    (acc : List Page × Nat) (item : ContentItem) : List Page × Nat :=
  let acc' :=
    if settings.section_dividers then
      (acc.1 ++ [make_section_divider acc.2 item], acc.2 + 1)
    else acc
  let content_pages := make_content_pages acc'.2 item enriched_map orientation_map
    settings.max_photos_per_page
  (acc'.1 ++ content_pages, acc'.2 + content_pages.length)

/-- `stage4_layout.run` (minus the artifact write, which is I/O). -/
def stage4_run (settings : Settings) (manifest : ProjectManifest)
    (content_plan : ContentPlan) (photo_set : EnrichedPhotoSet) : PagePlan :=
  let enriched_map := enrichedMapOf photo_set.enriched_photos
  let orientation_map := orientationMapOf manifest.photos
  ⟨(content_plan.items.foldl (stage4_step settings enriched_map orientation_map)
      ([make_cover 1 manifest], 2)).1⟩

/-! ### Serialization of content plans (`src/models/content_plan.py`)

Pydantic's `model_dump_json` emits every declared field plus the
`combined_confidence` computed field; `model_validate` reconstructs a model
from the stored fields and ignores the computed field on input (it is
serialization-only and cannot be assigned).  A dumped record is modelled as a
field-complete structure. -/

/-- The field-complete serialized form of a `ContentItem`, including the
    derived `combined_confidence`. -/
structure ContentItemRecord where
  id : String
  session_ref : String
  heading : String
  photo_ids : List String
  text_snippet_ref : Option String
  temporal_confidence : ℚ
  semantic_confidence : ℚ
  needs_review : Bool
  combined_confidence : ℚ
deriving DecidableEq, Repr

/-- `model_dump` of a `ContentItem`. -/
def ContentItem.dump (it : ContentItem) : ContentItemRecord :=
  { id := it.id
    session_ref := it.session_ref
    heading := it.heading
    photo_ids := it.photo_ids
    text_snippet_ref := it.text_snippet_ref
    temporal_confidence := it.temporal_confidence
    semantic_confidence := it.semantic_confidence
    needs_review := it.needs_review
    combined_confidence := it.combined_confidence }

/-- `model_validate` of a serialized `ContentItem`: the stored
    `combined_confidence` input is ignored — the field is computed-only. -/
def ContentItemRecord.validate (r : ContentItemRecord) : ContentItem :=
  { id := r.id
    session_ref := r.session_ref
    heading := r.heading
    photo_ids := r.photo_ids
    text_snippet_ref := r.text_snippet_ref
    temporal_confidence := r.temporal_confidence
    semantic_confidence := r.semantic_confidence
    needs_review := r.needs_review }

/-- `model_dump` of a `ContentPlan`. -/
def ContentPlan.dump (plan : ContentPlan) : List ContentItemRecord :=
  plan.items.map ContentItem.dump

/-- `model_validate` of a serialized `ContentPlan`. -/
def ContentPlan.validate (rs : List ContentItemRecord) : ContentPlan :=
  ⟨rs.map ContentItemRecord.validate⟩

/-! ### Concrete example inputs used by counterexamples and witnesses -/

/-- A configuration with non-default weights (permitted by the settings
    layer, which validates only the threshold and the page capacity). -/
def exASettings : Settings :=
  { match_confidence_threshold := 13/20, temporal_weight := 1, semantic_weight := 0 }

def exASession : AgendaSession :=
  ⟨"s1", 1, "Session Eins", some ⟨9, 0, 0⟩, some ⟨10, 0, 0⟩⟩

/-- A photo taken at 09:30, inside the session window. -/
def exAPhoto : Photo := ⟨"p1", none, ⟨0, ⟨9, 30, 0⟩⟩, "landscape"⟩

def exAManifest : ProjectManifest :=
  { meta := ⟨"W", none, none⟩
    sessions := [exASession]
    photos := [exAPhoto]
    text_snippets := [] }

def exAPhotos : EnrichedPhotoSet := ⟨[]⟩

/-- Default settings. -/
def exBSettings : Settings := {}

def exBSession : AgendaSession := ⟨"s1", 1, "Sitzung", none, none⟩

/-- A manifest with one session and no photos at all. -/
def exBManifest : ProjectManifest :=
  { meta := ⟨"W", none, none⟩
    sessions := [exBSession]
    photos := []
    text_snippets := [] }

def exBPhotos : EnrichedPhotoSet := ⟨[]⟩

/-- A content item holding a single photo whose manifest orientation is
    "square". -/
def exC1Item : ContentItem :=
  ⟨"item_001", "s1", "Quadrate", ["p1"], none, 1/2, 1/2, false⟩

/-- Orientation map of a manifest whose only photo is square. -/
def exC1Omap : List (String × String) := [("p1", "square")]

/-- A content item holding exactly three photos. -/
def exC5Item : ContentItem :=
  ⟨"item_001", "s1", "Drei Fotos", ["p1", "p2", "p3"], none, 1/2, 1/2, false⟩

/-- The trailing one-photo batch page of `exC5Item` (3 photos at capacity 2):
    its only slot is the third photo, landscape by default. -/
def exC1TrailSlot : PhotoSlot := ⟨"p3", "", "full-width", ""⟩

def exC1TrailPage : Page :=
  ⟨2, "content", "1-photo", some "item_001", [exC1TrailSlot], []⟩

/-- A session windowed 09:00–10:00, and a photo timestamp 30 seconds past
    the end of the window. -/
def exC9Session : AgendaSession :=
  ⟨"s1", 1, "Morgens", some ⟨9, 0, 0⟩, some ⟨10, 0, 0⟩⟩

def exC9Photo : Photo := ⟨"p1", some ⟨0, ⟨10, 0, 30⟩⟩, ⟨0, ⟨10, 0, 30⟩⟩, "landscape"⟩

/-! ## Helper lemmas -/

lemma roundQ4_half : roundQ4 (1/2) = 1/2 := by
  norm_num [roundQ4, roundHalfEven, floorQ]

lemma chunkList_singleton (m : Nat) (hm : 1 ≤ m) (a : α) : chunkList m [a] = [[a]] := by
  cases m with
  | zero => exact absurd hm (by simp)
  | succ k => simp [chunkList, chunkAux]

/-! ### Evaluation of the `exA` pipeline run (one photo, weights 1 / 0) -/

lemma exA_tscore : temporal_score exAPhoto exASession [exASession] = 1 := by
  norm_num [temporal_score, exAPhoto, exASession, Photo.best_timestamp,
    temporal_score_at, effectiveEnd, time_in_window, Time.leb]

lemma exA_sscore :
    semantic_score (dlookup (enrichedMapOf exAPhotos.enriched_photos) "p1")
      exASession [] = 1/10 := by
  norm_num [semantic_score, enrichedMapOf, dlookup, SEMANTIC_FLOOR,
    show exAPhotos.enriched_photos = [] from rfl]

lemma exA_scores :
    photoScoresOf exAManifest exAPhotos = [("p1", [("s1", ((1 : ℚ), 1/10))])] := by
  rw [photoScoresOf, show exAManifest.sessions = [exASession] from rfl,
    show exAManifest.photos = [exAPhoto] from rfl,
    show exAManifest.text_snippets = [] from rfl]
  simp only [List.foldl_cons, List.foldl_nil]
  rw [show exAPhoto.id = "p1" from rfl, show exASession.id = "s1" from rfl]
  rw [exA_tscore, exA_sscore]
  rfl

lemma exA_assign : assignmentsOf exASettings exAManifest exAPhotos = [("s1", ["p1"])] := by
  rw [assignmentsOf, exA_scores, show exAManifest.sessions = [exASession] from rfl,
    show exAManifest.photos = [exAPhoto] from rfl]
  simp only [List.foldl_cons, List.foldl_nil]
  rw [show exASession.id = "s1" from rfl, show exAPhoto.id = "p1" from rfl]
  norm_num [dlookup, pyMaxBy, upsert, dictAppend]

lemma exA_agg : aggConf exASettings exAManifest exAPhotos exASession = (1, 1/10) := by
  rw [aggConf, exA_scores, exA_assign]
  norm_num [dlookup, pyMean, exASession]

lemma exA_item :
    (stage3b_run exASettings exAManifest exAPhotos).items
      = [⟨"item_" ++ pad3 1, "s1", "Session Eins", ["p1"], none, 1, 1/10, false⟩] := by
  rw [stage3b_run,
    if_neg (by rw [show exAManifest.sessions = [exASession] from rfl]
               exact (List.cons_ne_nil _ _)),
    show exAManifest.sessions = [exASession] from rfl]
  simp only [pyEnum, List.map_cons, List.map_nil, mkItem]
  rw [exA_agg, exA_assign]
  norm_num [dlookup, find_text_snippet, combinedOf, exASession,
    show exASettings.match_confidence_threshold = 13/20 from rfl,
    show exASettings.temporal_weight = 1 from rfl,
    show exASettings.semantic_weight = 0 from rfl,
    show exAManifest.text_snippets = [] from rfl,
    roundQ4, roundHalfEven, floorQ]

/-! ### Evaluation of the `exB` pipeline run (one session, zero photos) -/

lemma exB_assign : assignmentsOf exBSettings exBManifest exBPhotos = [("s1", [])] := by
  rw [assignmentsOf, show exBManifest.photos = [] from rfl,
    show exBManifest.sessions = [exBSession] from rfl]
  simp only [List.foldl_cons, List.foldl_nil]
  rw [show exBSession.id = "s1" from rfl]
  rfl

lemma exB_agg : aggConf exBSettings exBManifest exBPhotos exBSession = (1/2, 1/2) := by
  rw [aggConf, exB_assign]
  norm_num [dlookup, exBSession]

lemma exB_items :
    (stage3b_run exBSettings exBManifest exBPhotos).items
      = [mkItem exBSettings exBManifest exBPhotos 1 exBSession] := rfl

lemma exB_item_fields :
    (mkItem exBSettings exBManifest exBPhotos 1 exBSession).photo_ids = [] ∧
    (mkItem exBSettings exBManifest exBPhotos 1 exBSession).temporal_confidence = 1/2 ∧
    (mkItem exBSettings exBManifest exBPhotos 1 exBSession).semantic_confidence = 1/2 ∧
    (mkItem exBSettings exBManifest exBPhotos 1 exBSession).needs_review = true := by
  simp only [mkItem]
  rw [exB_agg, exB_assign]
  norm_num [dlookup, combinedOf, exBSession,
    show exBSettings.match_confidence_threshold = 13/20 from rfl,
    show exBSettings.temporal_weight = 3/5 from rfl,
    show exBSettings.semantic_weight = 2/5 from rfl,
    roundQ4, roundHalfEven, floorQ]

/-! ## Claim C1 -/

/-- C1, counterexample: a batch of one photo whose resolved orientation is
    "square" is emitted on a `1-photo` page whose only slot has display size
    `portrait-pair`, not `full-width` as the claim states — the code treats
    every non-landscape single photo as portrait. -/
theorem C1_counterexample :
    photo_orientation "p1" [] exC1Omap = "square" ∧
    (make_content_pages 1 exC1Item [] exC1Omap 2).map
        (fun p => (p.layout_variant, p.photo_slots.map (fun s => s.display_size)))
      = [("1-photo", ["portrait-pair"])] ∧
    ("portrait-pair" : String) ≠ "full-width" := by
  refine ⟨rfl, ?_, by decide⟩
  decide

/-- Every page emitted by the batch loop renders one of the batches: its
    slots are that batch's photos (sized by the batch length) and its layout
    variant is chosen from those slots. -/
lemma mem_pagesOfBatches {item : ContentItem}
    {em : List (String × EnrichedPhoto)} {om : List (String × String)} :
    ∀ {bs : List (List String)} {n : Nat} {first : Bool} {pg : Page},
      pg ∈ pagesOfBatches item em om n first bs →
      ∃ batch ∈ bs,
        pg.photo_slots
            = batch.map (fun pid => make_photo_slot pid batch.length em om) ∧
          pg.layout_variant = pick_layout_variant pg.photo_slots := by
  intro bs
  induction bs with
  | nil => intro n first pg h; exact absurd h (List.not_mem_nil _)
  | cons b rest ih =>
    intro n first pg h
    rw [pagesOfBatches] at h
    rcases List.mem_cons.mp h with rfl | h
    · exact ⟨b, List.mem_cons_self b rest, rfl, rfl⟩
    · obtain ⟨batch, hb, h1, h2⟩ := ih h
      exact ⟨batch, List.mem_cons_of_mem b hb, h1, h2⟩

/-- C1, amended: **every** content page rendering a batch of exactly one
    photo — a one-photo item as well as a trailing (or, at capacity 1, any)
    one-photo batch of a larger item — has layout variant `1-photo`, and its
    slot is `full-width` exactly when the resolved orientation is
    "landscape"; a portrait **or square** (or anything else non-landscape)
    single photo gets `portrait-pair`. -/
theorem C1_amended (start : Nat) (item : ContentItem)
    (em : List (String × EnrichedPhoto)) (om : List (String × String))
    (m : Nat) (pg : Page) (slot : PhotoSlot)
    (hpg : pg ∈ make_content_pages start item em om m)
    (hslot : pg.photo_slots = [slot]) :
    pg.layout_variant = "1-photo" ∧
    slot.display_size
      = (if photo_orientation slot.photo_id em om = "landscape"
         then "full-width" else "portrait-pair") := by
  rw [make_content_pages] at hpg
  by_cases h : item.photo_ids = []
  · rw [if_pos h] at hpg
    obtain rfl := List.mem_singleton.mp hpg
    simp at hslot
  · rw [if_neg h] at hpg
    obtain ⟨batch, -, h1, h2⟩ := mem_pagesOfBatches hpg
    rw [hslot] at h1 h2
    cases batch with
    | nil => simp at h1
    | cons pid rest =>
      cases rest with
      | nil =>
        have hs : slot = make_photo_slot pid 1 em om := by simpa using h1
        refine ⟨?_, ?_⟩
        · rw [h2, pick_layout_variant]
          simp
        · rw [hs]
          simp [make_photo_slot]
      | cons p2 rest2 =>
        have hlen := congrArg List.length h1
        simp at hlen

/-- C1, witness for the amended theorem at the trailing one-photo batch of a
    three-photo item rendered at capacity 2. -/
theorem C1_witness :
    exC1TrailPage.layout_variant = "1-photo" ∧
    exC1TrailSlot.display_size
      = (if photo_orientation exC1TrailSlot.photo_id [] [] = "landscape"
         then "full-width" else "portrait-pair") :=
  C1_amended 1 exC5Item [] [] 2 exC1TrailPage exC1TrailSlot
    (by decide) (by decide)

/-! ## Claim C2 -/

/-- C2, counterexample: under the valid configuration `temporal_weight = 1`,
    `semantic_weight = 0` (threshold 0.65) the pipeline produces an item with
    `needs_review = False` although its stored `combined_confidence` (0.64,
    computed from the hard-coded 0.6/0.4 constants) is below the threshold —
    the claimed equivalence fails. -/
theorem C2_counterexample :
    ∃ it ∈ (stage3b_run exASettings exAManifest exAPhotos).items,
      it.needs_review = false ∧
        it.combined_confidence < exASettings.match_confidence_threshold := by
  rw [exA_item]
  refine ⟨_, List.mem_singleton.mpr rfl, rfl, ?_⟩
  norm_num [ContentItem.combined_confidence, TEMPORAL_WEIGHT, SEMANTIC_WEIGHT,
    show exASettings.match_confidence_threshold = 13/20 from rfl,
    roundQ4, roundHalfEven, floorQ]

/-- C2, amended: `needs_review` is computed from the **configured** weights
    on the **unrounded** aggregated means, while the stored
    `combined_confidence` uses the hard-coded default weights 0.6/0.4 on the
    rounded stored confidences.  The claimed equivalence holds whenever the
    configured weights are the defaults and the aggregated means are exact at
    4 decimals. -/
theorem C2_amended (s : Settings) (m : ProjectManifest) (p : EnrichedPhotoSet)
    (i : Nat) (sess : AgendaSession)
    (hwt : s.temporal_weight = 3/5) (hws : s.semantic_weight = 2/5)
    (_hmem : mkItem s m p i sess ∈ (stage3b_run s m p).items)
    (ht : roundQ4 (aggConf s m p sess).1 = (aggConf s m p sess).1)
    (hs : roundQ4 (aggConf s m p sess).2 = (aggConf s m p sess).2) :
    (mkItem s m p i sess).needs_review = true
      ↔ (mkItem s m p i sess).combined_confidence
          < s.match_confidence_threshold := by
  have key : (mkItem s m p i sess).combined_confidence
      = combinedOf (aggConf s m p sess) s := by
    simp only [mkItem, ContentItem.combined_confidence, TEMPORAL_WEIGHT,
      SEMANTIC_WEIGHT, combinedOf, hwt, hws, ht, hs]
  rw [key]
  simp only [mkItem]
  by_cases hc : combinedOf (aggConf s m p sess) s < s.match_confidence_threshold
  · simp [hc]
  · simp [hc]

/-- C2, witness for the amended theorem: the zero-photo run under default
    settings, whose aggregates (0.5) are exact at 4 decimals. -/
theorem C2_witness :
    (mkItem exBSettings exBManifest exBPhotos 1 exBSession).needs_review = true
      ↔ (mkItem exBSettings exBManifest exBPhotos 1 exBSession).combined_confidence
          < exBSettings.match_confidence_threshold :=
  C2_amended exBSettings exBManifest exBPhotos 1 exBSession rfl rfl
    (by rw [exB_items]; exact List.mem_singleton.mpr rfl)
    (by rw [exB_agg]; exact roundQ4_half)
    (by rw [exB_agg]; exact roundQ4_half)

/-! ## Claim C3 -/

/-- C3, counterexample: under the externally configured weights
    `temporal_weight = 1`, `semantic_weight = 0` the pipeline produces a
    ContentItem whose `combined_confidence` (0.64, from the hard-coded module
    constants 0.6/0.4) differs from
    `round(temporal_weight·temporal + semantic_weight·semantic, 4)` (= 1). -/
theorem C3_counterexample :
    ∃ it ∈ (stage3b_run exASettings exAManifest exAPhotos).items,
      it.combined_confidence
        ≠ roundQ4 (exASettings.temporal_weight * it.temporal_confidence
            + exASettings.semantic_weight * it.semantic_confidence) := by
  rw [exA_item]
  refine ⟨_, List.mem_singleton.mpr rfl, ?_⟩
  norm_num [ContentItem.combined_confidence, TEMPORAL_WEIGHT, SEMANTIC_WEIGHT,
    show exASettings.temporal_weight = 1 from rfl,
    show exASettings.semantic_weight = 0 from rfl,
    roundQ4, roundHalfEven, floorQ]

/-- C3, amended: `combined_confidence` always equals
    `round(0.6·temporal_confidence + 0.4·semantic_confidence, 4)` with the
    weights hard-coded in `content_plan.py`, regardless of the configured
    `temporal_weight`/`semantic_weight`. -/
theorem C3_amended (it : ContentItem) :
    it.combined_confidence
      = roundQ4 (3/5 * it.temporal_confidence + 2/5 * it.semantic_confidence) := rfl

/-! ## Claim C4 -/

/-- C4, counterexample: a session with zero assigned photos does get the
    neutral confidences 0.5/0.5, but under the default configuration its
    combined confidence 0.5 is below the default threshold 0.65, so
    `needs_review` is **True** — the session *is* flagged for review,
    contradicting the claim. -/
theorem C4_counterexample :
    ∃ it ∈ (stage3b_run exBSettings exBManifest exBPhotos).items,
      it.photo_ids = [] ∧ it.temporal_confidence = 1/2 ∧
        it.semantic_confidence = 1/2 ∧ it.needs_review = true := by
  rw [exB_items]
  exact ⟨_, List.mem_singleton.mpr rfl, exB_item_fields⟩

/-- C4, amended: every item with zero assigned photos gets the neutral
    aggregated confidences 0.5/0.5, and its `needs_review` flag is exactly
    `fuse(0.5, 0.5) < threshold` under the configured weights — which under
    the defaults (0.5 < 0.65) flags the session for review. -/
theorem C4_amended (s : Settings) (m : ProjectManifest) (p : EnrichedPhotoSet)
    (i : Nat) (sess : AgendaSession)
    (_hmem : mkItem s m p i sess ∈ (stage3b_run s m p).items)
    (h : (mkItem s m p i sess).photo_ids = []) :
    (mkItem s m p i sess).temporal_confidence = 1/2 ∧
    (mkItem s m p i sess).semantic_confidence = 1/2 ∧
    (mkItem s m p i sess).needs_review
      = (if combinedOf (1/2, 1/2) s < s.match_confidence_threshold
         then true else false) := by
  simp only [mkItem] at h
  have ha : aggConf s m p sess = (1/2, 1/2) := by
    simp [aggConf, h]
  simp only [mkItem, ha]
  exact ⟨roundQ4_half, roundQ4_half, trivial⟩

/-- C4, witness for the amended theorem at the concrete zero-photo run. -/
theorem C4_witness :
    (mkItem exBSettings exBManifest exBPhotos 1 exBSession).temporal_confidence = 1/2 ∧
    (mkItem exBSettings exBManifest exBPhotos 1 exBSession).semantic_confidence = 1/2 ∧
    (mkItem exBSettings exBManifest exBPhotos 1 exBSession).needs_review
      = (if combinedOf (1/2, 1/2) exBSettings
            < exBSettings.match_confidence_threshold
         then true else false) :=
  C4_amended exBSettings exBManifest exBPhotos 1 exBSession
    (by rw [exB_items]; exact List.mem_singleton.mpr rfl)
    exB_item_fields.1

/-! ## Claim C5 -/

/-- C5, counterexample: an item holding exactly 3 photos with
    `max_photos_per_page = 1` produces **3** content pages with slot counts
    `[1, 1, 1]`, not 2 pages as the claim states. -/
theorem C5_counterexample :
    (make_content_pages 1 exC5Item [] [] 1).map (fun p => p.photo_slots.length)
        = [1, 1, 1] ∧
    (make_content_pages 1 exC5Item [] [] 1).length ≠ 2 := by
  constructor
  · decide
  · decide

/-- C5, amended: an item holding exactly 3 photos produces 2 content pages
    with slot counts `[2, 1]` under `max_photos_per_page = 2`, and 3 content
    pages with slot counts `[1, 1, 1]` under `max_photos_per_page = 1`. -/
theorem C5_amended (start : Nat) (item : ContentItem)
    (em : List (String × EnrichedPhoto)) (om : List (String × String))
    (a b c : String) (h : item.photo_ids = [a, b, c]) :
    (make_content_pages start item em om 2).map (fun p => p.photo_slots.length)
        = [2, 1] ∧
    (make_content_pages start item em om 1).map (fun p => p.photo_slots.length)
        = [1, 1, 1] := by
  rw [make_content_pages, make_content_pages,
    if_neg (by rw [h]; exact List.cons_ne_nil _ _),
    if_neg (by rw [h]; exact List.cons_ne_nil _ _), h]
  constructor
  · rfl
  · rfl

/-- C5, witness for the amended theorem at a concrete 3-photo item. -/
theorem C5_witness :
    (make_content_pages 1 exC5Item [] [] 2).map (fun p => p.photo_slots.length)
        = [2, 1] ∧
    (make_content_pages 1 exC5Item [] [] 1).map (fun p => p.photo_slots.length)
        = [1, 1, 1] :=
  C5_amended 1 exC5Item [] [] "p1" "p2" "p3" rfl

/-! ## Claim C6 -/

lemma tok_isWord {c : Char} (h : isTokChar c = true) : isWordChar c = true := by
  simp [isWordChar, h]

lemma lastOkB_cons_flag (c : Char) (pre : List Char) (b : Bool) :
    lastOkB (c :: pre) b = lastOkB pre (isWordChar c) := rfl

lemma lastOkB_eq (pre : List Char) (b : Bool) :
    lastOkB pre b
      = match pre.getLast? with
        | none => !b
        | some c => !isWordChar c := by
  induction pre generalizing b with
  | nil => rfl
  | cons c rest ih =>
    cases rest with
    | nil => simp [lastOkB, List.getLast?_singleton]
    | cons d rest' =>
      rw [lastOkB_cons_flag, ih, List.getLast?_cons_cons]
      obtain ⟨x, hx⟩ : ∃ x, (d :: rest').getLast? = some x :=
        ⟨(d :: rest').getLast (by simp), List.getLast?_eq_getLast _ _⟩
      rw [hx]

lemma lastOkB_false_iff (pre : List Char) :
    lastOkB pre false = true
      ↔ ∀ c, pre.getLast? = some c → isWordChar c = false := by
  rw [lastOkB_eq]
  cases h : pre.getLast? with
  | none => simp
  | some c => simp [Bool.not_eq_true']

lemma okAfterB_iff (post : List Char) :
    okAfterB post = true
      ↔ ∀ c, post.head? = some c → isWordChar c = false := by
  cases post with
  | nil => simp [okAfterB]
  | cons c rest => simp [okAfterB, Bool.not_eq_true']

lemma RunSpec_cons_tok {c : Char} (hc : isTokChar c = true)
    (ok : Bool) (acc cs w : List Char) :
    RunSpec ok acc (c :: cs) w ↔ RunSpec ok (acc ++ [c]) cs w := by
  unfold RunSpec
  constructor
  · rintro ⟨hok, h2, mid, post, hcs, hall, hw, hA⟩
    cases mid with
    | nil =>
      simp only [List.nil_append] at hcs
      rw [← hcs] at hA
      simp [okAfterB, tok_isWord hc] at hA
    | cons c0 mid' =>
      simp only [List.cons_append, List.cons.injEq] at hcs
      obtain ⟨rfl, hcs'⟩ := hcs
      simp only [List.all_cons, Bool.and_eq_true] at hall
      exact ⟨hok, h2, mid', post, hcs', hall.2, by simp [hw], hA⟩
  · rintro ⟨hok, h2, mid', post, hcs, hall, hw, hA⟩
    exact ⟨hok, h2, c :: mid', post, by simp [hcs],
      by simp [List.all_cons, hc, hall], by simp [hw], hA⟩

lemma RunSpec_cons_nontok {c : Char} (hc : isTokChar c = false)
    (ok : Bool) (acc cs w : List Char) :
    RunSpec ok acc (c :: cs) w
      ↔ (ok = true ∧ 2 ≤ w.length ∧ w = acc ∧ isWordChar c = false) := by
  unfold RunSpec
  constructor
  · rintro ⟨hok, h2, mid, post, hcs, hall, hw, hA⟩
    cases mid with
    | nil =>
      simp only [List.nil_append] at hcs
      rw [← hcs] at hA
      refine ⟨hok, h2, by simpa using hw, ?_⟩
      simpa [okAfterB, Bool.not_eq_true'] using hA
    | cons c0 mid' =>
      simp only [List.cons_append, List.cons.injEq] at hcs
      obtain ⟨rfl, -⟩ := hcs
      simp only [List.all_cons, Bool.and_eq_true] at hall
      rw [hc] at hall
      exact absurd hall.1 (by simp)
  · rintro ⟨hok, h2, hw, hword⟩
    exact ⟨hok, h2, [], c :: cs, rfl, rfl, by simpa using hw,
      by simp [okAfterB, hword]⟩

lemma TokensSpec_cons_nontok {c : Char} (hc : isTokChar c = false)
    (prevW : Bool) (cs w : List Char) :
    TokensSpec prevW (c :: cs) w ↔ TokensSpec (isWordChar c) cs w := by
  unfold TokensSpec
  constructor
  · rintro ⟨h2, hall, pre, post, hcs, hlast, hA⟩
    refine ⟨h2, hall, ?_⟩
    cases pre with
    | nil =>
      simp only [List.nil_append] at hcs
      cases w with
      | nil => simp at h2
      | cons w0 w' =>
        simp only [List.cons_append, List.cons.injEq] at hcs
        obtain ⟨h1, -⟩ := hcs
        simp only [List.all_cons, Bool.and_eq_true] at hall
        rw [← h1, hc] at hall
        exact absurd hall.1 (by simp)
    | cons c0 pre' =>
      simp only [List.cons_append, List.cons.injEq] at hcs
      obtain ⟨rfl, hcs'⟩ := hcs
      rw [lastOkB_cons_flag] at hlast
      exact ⟨pre', post, hcs', hlast, hA⟩
  · rintro ⟨h2, hall, pre', post, hcs, hlast, hA⟩
    exact ⟨h2, hall, c :: pre', post, by simp [hcs],
      by rw [lastOkB_cons_flag]; exact hlast, hA⟩

lemma TokensSpec_cons_tok {c : Char} (hc : isTokChar c = true)
    (prevW : Bool) (cs w : List Char) :
    TokensSpec prevW (c :: cs) w
      ↔ (RunSpec (!prevW) [c] cs w ∨ TokensSpec true cs w) := by
  unfold TokensSpec RunSpec
  constructor
  · rintro ⟨h2, hall, pre, post, hcs, hlast, hA⟩
    cases pre with
    | nil =>
      left
      simp only [List.nil_append] at hcs
      cases w with
      | nil => simp at h2
      | cons w0 w' =>
        simp only [List.cons_append, List.cons.injEq] at hcs
        obtain ⟨h1, hcs'⟩ := hcs
        subst h1
        simp only [List.all_cons, Bool.and_eq_true] at hall
        refine ⟨?_, h2, w', post, hcs', hall.2, rfl, hA⟩
        simpa [lastOkB] using hlast
    | cons c0 pre' =>
      right
      simp only [List.cons_append, List.cons.injEq] at hcs
      obtain ⟨rfl, hcs'⟩ := hcs
      rw [lastOkB_cons_flag] at hlast
      cases pre' with
      | nil => simp [lastOkB, tok_isWord hc] at hlast
      | cons d pre'' => exact ⟨h2, hall, d :: pre'', post, hcs', hlast, hA⟩
  · rintro (⟨hok, h2, mid, post, hcs, hall, hw, hA⟩ |
      ⟨h2, hall, pre', post, hcs, hlast, hA⟩)
    · refine ⟨h2, by rw [hw]; simp [List.all_cons, hc, hall], [], post,
        ?_, by simpa [lastOkB] using hok, hA⟩
      rw [hw, hcs]
      simp
    · refine ⟨h2, hall, c :: pre', post, by simp [hcs], ?_, hA⟩
      rw [lastOkB_cons_flag]
      cases pre' with
      | nil => simp [lastOkB] at hlast
      | cons d pre'' => exact hlast

/-- Membership characterization of the `_tokenize` scanner, in both scan
    states, by induction over the text. -/
lemma tokAux_mem_spec (cs : List Char) :
    (∀ (prevW : Bool) (w : List Char),
      w ∈ tokAux (Sum.inl prevW) cs ↔ TokensSpec prevW cs w) ∧
    (∀ (ok : Bool) (acc w : List Char),
      w ∈ tokAux (Sum.inr (ok, acc)) cs ↔
        (RunSpec ok acc cs w ∨ TokensSpec true cs w)) := by
  induction cs with
  | nil =>
    constructor
    · intro prevW w
      simp only [tokAux, List.not_mem_nil, false_iff]
      rintro ⟨h2, -, pre, post, hcs, -, -⟩
      have h := hcs.symm
      simp only [List.append_eq_nil] at h
      rw [h.1.2] at h2
      simp at h2
    · intro ok acc w
      constructor
      · intro h
        simp only [tokAux] at h
        by_cases hg : (ok && decide (2 ≤ acc.length)) = true
        · rw [if_pos hg] at h
          obtain rfl := List.mem_singleton.mp h
          left
          simp only [Bool.and_eq_true, decide_eq_true_eq] at hg
          exact ⟨hg.1, hg.2, [], [], rfl, rfl, by simp, rfl⟩
        · rw [if_neg hg] at h
          exact absurd h (List.not_mem_nil w)
      · rintro (⟨hok, h2, mid, post, hcs, -, hw, -⟩ |
          ⟨h2, -, pre, post, hcs, -, -⟩)
        · rcases List.append_eq_nil.mp hcs.symm with ⟨hm, -⟩
          rw [hm] at hw
          simp only [List.append_nil] at hw
          subst hw
          simp only [tokAux]
          rw [if_pos (by simp [hok]; exact h2)]
          exact List.mem_singleton.mpr rfl
        · have h := hcs.symm
          simp only [List.append_eq_nil] at h
          rw [h.1.2] at h2
          simp at h2
  | cons c cs ih =>
    obtain ⟨ih1, ih2⟩ := ih
    by_cases hc : isTokChar c = true
    · constructor
      · intro prevW w
        rw [show tokAux (Sum.inl prevW) (c :: cs)
            = tokAux (Sum.inr (!prevW, [c])) cs from by simp [tokAux, hc]]
        rw [ih2, TokensSpec_cons_tok hc]
      · intro ok acc w
        rw [show tokAux (Sum.inr (ok, acc)) (c :: cs)
            = tokAux (Sum.inr (ok, acc ++ [c])) cs from by simp [tokAux, hc]]
        rw [ih2]
        constructor
        · rintro (hr | ht)
          · exact Or.inl ((RunSpec_cons_tok hc ok acc cs w).mpr hr)
          · exact Or.inr ((TokensSpec_cons_tok hc true cs w).mpr (Or.inr ht))
        · rintro (hr | ht)
          · exact Or.inl ((RunSpec_cons_tok hc ok acc cs w).mp hr)
          · rcases (TokensSpec_cons_tok hc true cs w).mp ht with h | h
            · exact absurd h.1 (by simp)
            · exact Or.inr h
    · have hc' : isTokChar c = false := by simpa using hc
      constructor
      · intro prevW w
        rw [show tokAux (Sum.inl prevW) (c :: cs)
            = tokAux (Sum.inl (isWordChar c)) cs from by simp [tokAux, hc']]
        rw [ih1, TokensSpec_cons_nontok hc']
      · intro ok acc w
        rw [show tokAux (Sum.inr (ok, acc)) (c :: cs)
            = (if ok && decide (2 ≤ acc.length) && !isWordChar c
               then [acc] else [])
              ++ tokAux (Sum.inl (isWordChar c)) cs from by simp [tokAux, hc']]
        constructor
        · intro h
          rcases List.mem_append.mp h with h | h
          · by_cases hg : (ok && decide (2 ≤ acc.length) && !isWordChar c) = true
            · rw [if_pos hg] at h
              obtain rfl := List.mem_singleton.mp h
              left
              simp only [Bool.and_eq_true, decide_eq_true_eq,
                Bool.not_eq_true'] at hg
              exact (RunSpec_cons_nontok hc' ok w cs w).mpr
                ⟨hg.1.1, hg.1.2, rfl, hg.2⟩
            · rw [if_neg hg] at h
              exact absurd h (List.not_mem_nil _)
          · exact Or.inr ((TokensSpec_cons_nontok hc' true cs w).mpr
              ((ih1 _ w).mp h))
        · rintro (hr | ht)
          · rcases (RunSpec_cons_nontok hc' ok acc cs w).mp hr with
              ⟨hok, h2, rfl, hword⟩
            apply List.mem_append.mpr
            left
            rw [if_pos (by simp [hok, hword]; exact h2)]
            exact List.mem_singleton.mpr rfl
          · apply List.mem_append.mpr
            right
            exact (ih1 _ w).mpr ((TokensSpec_cons_nontok hc' true cs w).mp ht)

/-- C6, counterexample: in the text "ab1" the claim's token set contains the
    maximal alphabetic run "ab" (its only neighbour is the digit '1', which
    is not alphabetic), yet `_tokenize` extracts nothing — the regex requires
    a word boundary and a digit is a word character. -/
theorem C6_counterexample :
    ClaimTokenOf "ab1" "ab" ∧ ("ab" : String) ∉ pyTokenize "ab1" := by
  constructor
  · refine ⟨by decide, by decide, [], ['1'],
      by decide, ?_, ?_⟩
    · intro c h
      exact absurd h (by simp)
    · intro c h
      rw [← Option.some.inj h]
      decide
  · decide

/-- C6, amended: a string is a token of `_tokenize text` exactly when it is
    an alphabetic run (over a–z, ä/ö/ü/ß and their uppercase forms) of
    length ≥ 2 occurring in the lowered text **whose neighbouring characters
    are not word characters** — runs adjacent to digits, underscores or other
    word characters are *excluded*, not included as the claim stated.
    (The boundary condition subsumes maximality, since every alphabetic
    character is a word character.) -/
theorem C6_amended (text w : String) :
    w ∈ pyTokenize text
      ↔ (2 ≤ w.length ∧ w.data.all isTokChar = true ∧
          ∃ pre post, text.data.map lowerChar = pre ++ w.data ++ post ∧
            (∀ c, pre.getLast? = some c → isWordChar c = false) ∧
            (∀ c, post.head? = some c → isWordChar c = false)) := by
  have hmem : w ∈ pyTokenize text ↔ w.data ∈ tokenizeWords text := by
    simp only [pyTokenize, List.mem_toFinset, List.mem_map]
    constructor
    · rintro ⟨l, hl, rfl⟩
      exact hl
    · intro h
      exact ⟨w.data, h, rfl⟩
  rw [hmem, tokenizeWords,
    (tokAux_mem_spec (text.data.map lowerChar)).1 false w.data]
  unfold TokensSpec
  constructor
  · rintro ⟨h2, hall, pre, post, hcs, hlast, hA⟩
    exact ⟨h2, hall, pre, post, hcs, (lastOkB_false_iff pre).mp hlast,
      (okAfterB_iff post).mp hA⟩
  · rintro ⟨h2, hall, pre, post, hcs, hlast, hA⟩
    exact ⟨h2, hall, pre, post, hcs, (lastOkB_false_iff pre).mpr hlast,
      (okAfterB_iff post).mpr hA⟩

/-! ## Claim C7 -/

lemma pagesOfBatches_length (item : ContentItem)
    (em : List (String × EnrichedPhoto)) (om : List (String × String)) :
    ∀ (bs : List (List String)) (n : Nat) (first : Bool),
      (pagesOfBatches item em om n first bs).length = bs.length := by
  intro bs
  induction bs with
  | nil => intro n first; rfl
  | cons b rest ih => intro n first; simp [pagesOfBatches, ih]

lemma pagesOfBatches_map_pn (item : ContentItem)
    (em : List (String × EnrichedPhoto)) (om : List (String × String)) :
    ∀ (bs : List (List String)) (n : Nat) (first : Bool),
      (pagesOfBatches item em om n first bs).map (fun p => p.page_number)
        = List.range' n bs.length := by
  intro bs
  induction bs with
  | nil => intro n first; rfl
  | cons b rest ih =>
    intro n first
    simp only [List.length_cons, List.range'_succ, pagesOfBatches,
      List.map_cons, ih]

lemma make_content_pages_map_pn (start : Nat) (item : ContentItem)
    (em : List (String × EnrichedPhoto)) (om : List (String × String))
    (mpp : Nat) :
    (make_content_pages start item em om mpp).map (fun p => p.page_number)
      = List.range' start (make_content_pages start item em om mpp).length := by
  rw [make_content_pages]
  by_cases h : item.photo_ids = []
  · simp [h]
  · rw [if_neg h, pagesOfBatches_map_pn, pagesOfBatches_length]

lemma map_pn_extend (acc extra : List Page)
    (h1 : acc.map (fun p => p.page_number) = List.range' 1 acc.length)
    (h2 : extra.map (fun p => p.page_number)
      = List.range' (acc.length + 1) extra.length) :
    (acc ++ extra).map (fun p => p.page_number)
      = List.range' 1 (acc ++ extra).length := by
  rw [List.map_append, h1, h2, List.length_append,
    show acc.length + 1 = 1 + acc.length by omega]
  have h := List.range'_append_1 1 acc.length extra.length
  rwa [Nat.add_comm extra.length acc.length] at h

lemma stage4_step_invariant (s : Settings)
    (em : List (String × EnrichedPhoto)) (om : List (String × String))
    (item : ContentItem) (acc : List Page) (n : Nat)
    (h1 : acc.map (fun p => p.page_number) = List.range' 1 acc.length)
    (h2 : n = acc.length + 1) :
    (stage4_step s em om (acc, n) item).1.map (fun p => p.page_number)
        = List.range' 1 (stage4_step s em om (acc, n) item).1.length ∧
      (stage4_step s em om (acc, n) item).2
        = (stage4_step s em om (acc, n) item).1.length + 1 := by
  rw [stage4_step]
  by_cases hdiv : s.section_dividers
  · simp only [hdiv, ite_true]
    have hd : (acc ++ [make_section_divider n item]).map (fun p => p.page_number)
        = List.range' 1 (acc ++ [make_section_divider n item]).length :=
      map_pn_extend acc [make_section_divider n item] h1
        (by simp [make_section_divider, h2])
    constructor
    · refine map_pn_extend _ _ hd ?_
      rw [make_content_pages_map_pn]
      congr 1
      simp [h2]
    · simp only [List.length_append, List.length_cons, List.length_nil]
      omega
  · simp only [hdiv, ite_false, Bool.false_eq_true]
    constructor
    · refine map_pn_extend _ _ h1 ?_
      rw [make_content_pages_map_pn, h2]
    · simp only [List.length_append]
      omega

lemma stage4_foldl_invariant (s : Settings)
    (em : List (String × EnrichedPhoto)) (om : List (String × String)) :
    ∀ (items : List ContentItem) (acc : List Page) (n : Nat),
      acc.map (fun p => p.page_number) = List.range' 1 acc.length →
      n = acc.length + 1 →
      (items.foldl (stage4_step s em om) (acc, n)).1.map (fun p => p.page_number)
          = List.range' 1 (items.foldl (stage4_step s em om) (acc, n)).1.length ∧
        (items.foldl (stage4_step s em om) (acc, n)).2
          = (items.foldl (stage4_step s em om) (acc, n)).1.length + 1 := by
  intro items
  induction items with
  | nil => intro acc n h1 h2; exact ⟨h1, h2⟩
  | cons item rest ih =>
    intro acc n h1 h2
    rw [List.foldl_cons]
    have hstep := stage4_step_invariant s em om item acc n h1 h2
    exact ih _ _ hstep.1 hstep.2

/-- C7: for every page plan produced by the Page Planner — any session list,
    content items, enrichment map, `max_photos_per_page ≥ 1` and either value
    of `section_dividers` — the `page_number` fields of the emitted pages are
    exactly 1, 2, 3, … in emission order. -/
theorem C7_page_numbers (s : Settings) (manifest : ProjectManifest)
    (content_plan : ContentPlan) (photo_set : EnrichedPhotoSet)
    (_hmpp : 1 ≤ s.max_photos_per_page) :
    (stage4_run s manifest content_plan photo_set).pages.map
        (fun p => p.page_number)
      = List.range' 1
          (stage4_run s manifest content_plan photo_set).pages.length := by
  rw [stage4_run]
  exact (stage4_foldl_invariant s _ _ content_plan.items [make_cover 1 manifest] 2
    (by simp [make_cover]) rfl).1

/-- C7, witness at a concrete full run (section dividers on). -/
theorem C7_witness :
    (stage4_run { section_dividers := true } exAManifest
        ⟨[exC1Item, exC5Item]⟩ exAPhotos).pages.map (fun p => p.page_number)
      = List.range' 1
          (stage4_run { section_dividers := true } exAManifest
            ⟨[exC1Item, exC5Item]⟩ exAPhotos).pages.length :=
  C7_page_numbers { section_dividers := true } exAManifest
    ⟨[exC1Item, exC5Item]⟩ exAPhotos (by decide)

/-! ## Claim C8 -/

/-- C8: serializing a `ContentPlan` and deserializing it back yields an
    identical structure (every stored field of every item is reproduced), and
    `combined_confidence` cannot be set out-of-band — for **any** record,
    even one whose stored `combined_confidence` field was tampered with, the
    validated item recomputes it from the two stored confidences. -/
theorem C8_roundtrip :
    (∀ plan : ContentPlan, ContentPlan.validate (ContentPlan.dump plan) = plan) ∧
    (∀ r : ContentItemRecord,
      (ContentItemRecord.validate r).combined_confidence
        = roundQ4 (3/5 * r.temporal_confidence + 2/5 * r.semantic_confidence)) := by
  constructor
  · intro plan
    cases plan with
    | mk items =>
      have hcomp : (ContentItemRecord.validate ∘ ContentItem.dump)
          = fun it : ContentItem => it := funext fun _ => rfl
      simp only [ContentPlan.dump, ContentPlan.validate, List.map_map, hcomp,
        List.map_id']
  · intro r
    rfl

/-! ## Claim C9 -/

lemma leb_toMinutes_le {a b : Time} (ha : a.minute < 60) (h : a.leb b = true) :
    a.toMinutes ≤ b.toMinutes := by
  simp only [Time.leb, Bool.or_eq_true, Bool.and_eq_true, decide_eq_true_eq] at h
  simp only [Time.toMinutes]
  omega

lemma minutes_distance_nonneg (t start e : Time) :
    0 ≤ minutes_distance t start e := by
  rw [minutes_distance]
  split
  · exact le_refl 0
  · positivity

lemma minutes_distance_of_window {t start e : Time}
    (htv : t.minute < 60) (hsv : start.minute < 60)
    (hw : time_in_window t start e = true) : minutes_distance t start e = 0 := by
  rw [time_in_window, Bool.and_eq_true] at hw
  have h1 := leb_toMinutes_le hsv hw.1
  have h2 := leb_toMinutes_le htv hw.2
  rw [minutes_distance]
  exact if_pos ⟨by exact_mod_cast h1, by exact_mod_cast h2⟩

/-- The temporal score of a session with a known start and at least one
    timed sibling is always `max(0, 1 − distance/30)`, the distance being
    computed on whole minutes. -/
lemma temporal_score_at_eq (t : Time) (sess : AgendaSession)
    (ss : List AgendaSession) (start : Time)
    (hany : ss.filter (fun s => s.start_time.isSome) ≠ [])
    (hstart : sess.start_time = some start)
    (htv : t.minute < 60) (hsv : start.minute < 60) :
    temporal_score_at t sess ss
      = max 0 (1 - minutes_distance t start (effectiveEnd sess ss start) / 30) := by
  rw [temporal_score_at, if_neg hany]
  simp only [hstart]
  by_cases hw : time_in_window t start (effectiveEnd sess ss start) = true
  · rw [if_pos hw, minutes_distance_of_window htv hsv hw]
    norm_num
  · rw [if_neg hw]

/-- C9, counterexample: a photo timestamped 10:00:30 lies outside the window
    [09:00, 10:00] (time comparison includes seconds), yet its temporal score
    is exactly 1.0, because `_minutes_distance` truncates to whole minutes —
    refuting "the score is strictly below 1.0 for a disjoint window". -/
theorem C9_counterexample :
    time_in_window ⟨10, 0, 30⟩ ⟨9, 0, 0⟩
        (effectiveEnd exC9Session [exC9Session] ⟨9, 0, 0⟩) = false ∧
    exC9Photo.best_timestamp = some ⟨0, ⟨10, 0, 30⟩⟩ ∧
    exC9Session.start_time = some ⟨9, 0, 0⟩ ∧
    temporal_score exC9Photo exC9Session [exC9Session] = 1 := by
  refine ⟨by decide, by decide, by decide, ?_⟩
  norm_num [temporal_score, exC9Photo, Photo.best_timestamp, temporal_score_at,
    exC9Session, effectiveEnd, time_in_window, Time.leb, minutes_distance,
    Time.toMinutes]

/-- C9, amended: for a photo with a timestamp and a session with a start time
    (some session in the list being timed), the score always equals
    `max(0, 1 − d/30)` where `d` is the **whole-minute** distance to the
    effective window (seconds are ignored by the distance); hence it is 1.0
    inside the window, strictly below 1.0 only once the whole-minute distance
    is ≥ 1 (a photo outside the window but within the boundary minute still
    scores 1.0), weakly decreasing in that distance, and 0 at 30 or more
    minutes away. -/
theorem C9_amended (p : Photo) (sess : AgendaSession) (ss : List AgendaSession)
    (start : Time) (d : DateTime) (t' : Time)
    (hbt : p.best_timestamp = some d)
    (hany : ss.filter (fun s => s.start_time.isSome) ≠ [])
    (hstart : sess.start_time = some start)
    (htv : d.time.minute < 60) (hsv : start.minute < 60) (htv' : t'.minute < 60)
    (hfar : minutes_distance d.time start (effectiveEnd sess ss start)
      ≤ minutes_distance t' start (effectiveEnd sess ss start)) :
    temporal_score p sess ss
        = max 0 (1 - minutes_distance d.time start (effectiveEnd sess ss start) / 30) ∧
    (time_in_window d.time start (effectiveEnd sess ss start) = true →
      temporal_score p sess ss = 1) ∧
    (1 ≤ minutes_distance d.time start (effectiveEnd sess ss start) →
      temporal_score p sess ss < 1) ∧
    (30 ≤ minutes_distance d.time start (effectiveEnd sess ss start) →
      temporal_score p sess ss = 0) ∧
    temporal_score_at t' sess ss ≤ temporal_score p sess ss := by
  have hsc : temporal_score p sess ss = temporal_score_at d.time sess ss := by
    rw [temporal_score, hbt]
  have hf := temporal_score_at_eq d.time sess ss start hany hstart htv hsv
  have hf' := temporal_score_at_eq t' sess ss start hany hstart htv' hsv
  refine ⟨hsc.trans hf, ?_, ?_, ?_, ?_⟩
  · intro hw
    rw [hsc, hf, minutes_distance_of_window htv hsv hw]
    norm_num
  · intro h
    rw [hsc, hf]
    apply max_lt
    · norm_num
    · linarith
  · intro h
    rw [hsc, hf]
    apply max_eq_left
    linarith
  · rw [hsc, hf, hf']
    apply max_le_max le_rfl
    linarith

/-- C9, witness for the amended theorem: photo at 09:30 against the window
    [09:00, 10:00] scores 1.0 (both by the formula and by the in-window
    clause), and a photo at 13:00 (distance 180 minutes) scores no higher. -/
theorem C9_witness :
    temporal_score exAPhoto exASession [exASession]
        = max 0 (1 - minutes_distance ⟨9, 30, 0⟩ ⟨9, 0, 0⟩
            (effectiveEnd exASession [exASession] ⟨9, 0, 0⟩) / 30) ∧
    temporal_score exAPhoto exASession [exASession] = 1 ∧
    temporal_score_at ⟨13, 0, 0⟩ exASession [exASession]
      ≤ temporal_score exAPhoto exASession [exASession] := by
  have h := C9_amended exAPhoto exASession [exASession] ⟨9, 0, 0⟩
    ⟨0, ⟨9, 30, 0⟩⟩ ⟨13, 0, 0⟩ (by decide) (by decide) (by decide)
    (by decide) (by decide) (by decide)
    (by norm_num [minutes_distance, effectiveEnd, exASession, Time.toMinutes])
  exact ⟨h.1, h.2.1 (by decide), h.2.2.2.2⟩

/-! ## Claim C10 -/

/-- C10: for every structurally valid `Photo`, `best_timestamp` is some
    timestamp (`timestamp_file` is a required field and serves as the
    fallback), so `_temporal_score` always takes the has-timestamp path —
    its missing-timestamp branch (neutral 0.5) is unreachable for photos
    built from the manifest model. -/
theorem C10_best_timestamp (p : Photo) (s : AgendaSession)
    (ss : List AgendaSession) :
    ∃ d : DateTime, p.best_timestamp = some d ∧
      temporal_score p s ss = temporal_score_at d.time s ss := by
  cases h : p.timestamp_exif with
  | none =>
    exact ⟨p.timestamp_file, by simp [Photo.best_timestamp, h],
      by simp [temporal_score, Photo.best_timestamp, h]⟩
  | some d =>
    exact ⟨d, by simp [Photo.best_timestamp, h],
      by simp [temporal_score, Photo.best_timestamp, h]⟩

end FPG

